import Mathlib

/-!
# Verification of the Dashboard-Economics computation core

Shallow embedding of the computation services of the repository
(financial analysis, risk management, cost estimation) together with
theorems settling the specification claims.

JavaScript numbers are modelled by `ℚ` (exact rationals) except where the
source computes genuinely irrational quantities (`Math.sqrt`, fractional
`Math.pow`), which are modelled over `ℝ`.  `Math.round` rounds half toward
positive infinity, i.e. `Math.round x = ⌊x + 1/2⌋`.
-/

namespace DashboardEconomics

/-- JavaScript `Math.round`: rounds half toward positive infinity. -/
def jsRound (x : ℚ) : ℤ := ⌊x + 1/2⌋

/-- The ubiquitous `Math.round(x * 100) / 100` two-decimal rounding. -/
def round2 (x : ℚ) : ℚ := (jsRound (100 * x) : ℚ) / 100

/-- JavaScript `Math.abs`. -/
def jsAbs (q : ℚ) : ℚ := if q < 0 then -q else q

/-- Natural-number power on `ℚ`, written out recursively so that concrete
runs of the solvers reduce inside the kernel (`Math.pow` with a natural
exponent). -/
def qpow (q : ℚ) : ℕ → ℚ
  | 0 => 1
  | k + 1 => qpow q k * q

/-- JavaScript truncation toward zero, used by the `%` operator. -/
def jsTrunc (q : ℚ) : ℤ := if 0 ≤ q then ⌊q⌋ else ⌈q⌉

/-- JavaScript remainder `a % b` (truncated division remainder). -/
def jsMod (a b : ℚ) : ℚ := a - b * (jsTrunc (a / b) : ℚ)

/-! ## Financial Analysis Service (`financialAnalysis.js`)

`FinancialAnalysisService.calculateNPV`, `calculateIRR`,
`calculatePaybackPeriod`, `calculateDiscountedPaybackPeriod`. -/

/-- Sum of `f / (1+rate)^k` over a flow list, `k` counting up from the given
start index.  With start index 1 this is the `presentValue` accumulator of
`calculateNPV`; with start index 0 over `[-initialInvestment, ...cashFlows]`
it is the `npv` accumulator inside `calculateIRR`.  (JavaScript accumulates
left to right; rational addition is associative and commutative, so the
right-nested sum used here has the same value.) -/
def pvAux (rate : ℚ) : ℕ → List ℚ → ℚ
  | _, [] => 0
  | k, f :: fs => f / qpow (1 + rate) k + pvAux rate (k + 1) fs

/-- One entry of the `discountedCashFlows` array returned by `calculateNPV`. -/
structure NPVEntry where
  period : ℕ
  cashFlow : ℚ
  discountedValue : ℚ
  deriving Repr, DecidableEq

/-- Result record of `calculateNPV`. -/
structure NPVResult where
  initialInvestment : ℚ
  discountRate : ℚ
  totalPresentValue : ℚ
  npv : ℚ
  interp : String
  discountedCashFlows : List NPVEntry
  deriving Repr, DecidableEq

/-- The `discountedCashFlows` array built by the `calculateNPV` loop. -/
def npvEntries (rate : ℚ) : ℕ → List ℚ → List NPVEntry
  | _, [] => []
  | k, f :: fs =>
      ⟨k, f, round2 (f / qpow (1 + rate) k)⟩ :: npvEntries rate (k + 1) fs

/-- Unrounded net present value: discounted flows (periods starting at 1)
minus the initial investment. -/
def npvRaw (initialInvestment : ℚ) (cashFlows : List ℚ) (rate : ℚ) : ℚ :=
  pvAux rate 1 cashFlows - initialInvestment

/-- `FinancialAnalysisService.calculateNPV`.  Throws on an empty flow array
or a negative rate; otherwise discounts period `i` (1-based) by
`(1+rate)^i` and reports `npv = presentValue - initialInvestment`, rounded
to two decimals. -/
def calculateNPV (initialInvestment : ℚ) (cashFlows : List ℚ)
    (discountRate : ℚ) : Except String NPVResult :=
  if cashFlows = [] then
    .error "Cash flows array cannot be empty"
  else if discountRate < 0 then
    .error "Discount rate cannot be negative"
  else
    let presentValue := pvAux discountRate 1 cashFlows
    let npv := presentValue - initialInvestment
    .ok
      { initialInvestment := initialInvestment
        discountRate := discountRate * 100
        totalPresentValue := round2 presentValue
        npv := round2 npv
        interp :=
          if 0 < npv then "Accept Project"
          else if npv < 0 then "Reject Project"
          else "Indifferent"
        discountedCashFlows := npvEntries discountRate 1 cashFlows }

/-- Derivative accumulator of the Newton iteration inside `calculateIRR`:
`dnpv -= j * cf[j] / (1+rate)^(j+1)` for `j ≥ 1`. -/
def dnpvAux (rate : ℚ) : ℕ → List ℚ → ℚ
  | _, [] => 0
  | j, f :: fs =>
      (if j = 0 then 0 else -((j : ℚ) * f / qpow (1 + rate) (j + 1))) +
        dnpvAux rate (j + 1) fs

/-- Newton-Raphson tolerance used by `calculateIRR` (`0.0001`). -/
def irrTolerance : ℚ := 1 / 10000

/-- The Newton-Raphson loop of `calculateIRR` over the combined flow list
`[-initialInvestment, ...cashFlows]`: break when `|npv|` is within
tolerance, reseed the rate at `0.05` when the derivative magnitude falls
below tolerance, otherwise take a Newton step.  The fuel is the remaining
iteration count (`maxIterations = 100`). -/
def irrGo (allCashFlows : List ℚ) : ℕ → ℚ → ℚ
  | 0, rate => rate
  | fuel + 1, rate =>
      let npv := pvAux rate 0 allCashFlows
      if jsAbs npv < irrTolerance then rate
      else if jsAbs (dnpvAux rate 0 allCashFlows) < irrTolerance then
        irrGo allCashFlows fuel (1 / 20)
      else
        irrGo allCashFlows fuel (rate - npv / dnpvAux rate 0 allCashFlows)

/-- The rate reached by the `calculateIRR` iteration (seed `0.1`,
100 iterations). -/
def irrRate (initialInvestment : ℚ) (cashFlows : List ℚ) : ℚ :=
  irrGo (-initialInvestment :: cashFlows) 100 (1 / 10)

/-- Result record of `calculateIRR`. -/
structure IRRResult where
  initialInvestment : ℚ
  cashFlows : List ℚ
  irr : ℚ
  validation : ℚ
  interp : String
  deriving Repr, DecidableEq

/-- `FinancialAnalysisService.calculateIRR`: Newton-Raphson from seed rate
`0.1`, reporting the reached rate as a percentage together with a
`validation` residual (the NPV of the combined series at that rate).  No
exception is raised on non-convergence. -/
def calculateIRR (initialInvestment : ℚ) (cashFlows : List ℚ) :
    Except String IRRResult :=
  if cashFlows = [] then
    .error "Cash flows array cannot be empty"
  else
    let allCashFlows := -initialInvestment :: cashFlows
    let rate := irrGo allCashFlows 100 (1 / 10)
    let validation := pvAux rate 0 allCashFlows
    let irr := rate * 100
    .ok
      { initialInvestment := initialInvestment
        cashFlows := cashFlows
        irr := round2 irr
        validation := round2 validation
        interp := if 0 < irr then "Positive return" else "Negative return" }

/-- The payback loop of `calculatePaybackPeriod`: starting from cumulative
`-initialInvestment`, add flows one period at a time; at the first period
whose cumulative is non-negative return `i + |previousCumulative| / flow`
(the loop index is reconstructed by the `+ 1` map on the recursive call).
`none` means the cumulative never reached zero. -/
def pbLoop (cum : ℚ) : List ℚ → Option ℚ
  | [] => none
  | f :: fs =>
      if 0 ≤ cum + f then some (jsAbs cum / f)
      else (pbLoop (cum + f) fs).map (· + 1)

/-- The (unrounded, un-truthiness-filtered) payback value computed by the
`calculatePaybackPeriod` loop. -/
def rawPayback (initialInvestment : ℚ) (cashFlows : List ℚ) : Option ℚ :=
  pbLoop (-initialInvestment) cashFlows

/-- One entry of the `cashFlowAnalysis` array. -/
structure PBEntry where
  period : ℕ
  cashFlow : ℚ
  cumulativeCashFlow : ℚ
  deriving Repr, DecidableEq

/-- The `cashFlowAnalysis` array: the JavaScript loop `break`s at the first
crossing, so the array stops there. -/
def pbEntries (cum : ℚ) : ℕ → List ℚ → List PBEntry
  | _, [] => []
  | i, f :: fs =>
      ⟨i + 1, f, round2 (cum + f)⟩ ::
        (if 0 ≤ cum + f then [] else pbEntries (cum + f) (i + 1) fs)

/-- Result record of `calculatePaybackPeriod`.  The `paybackPeriod`,
`paybackInYears`, `paybackInMonths` and `interp` fields are all guarded by
the JavaScript truthiness test `paybackPeriod ? _ : _`, under which the
number `0` is falsy, just like `null`. -/
structure PaybackResult where
  initialInvestment : ℚ
  paybackPeriod : Option ℚ
  paybackInYears : Option ℤ
  paybackInMonths : Option ℤ
  interp : String
  cashFlowAnalysis : List PBEntry
  deriving Repr, DecidableEq

/-- `FinancialAnalysisService.calculatePaybackPeriod`. -/
def calculatePaybackPeriod (initialInvestment : ℚ) (cashFlows : List ℚ) :
    Except String PaybackResult :=
  if cashFlows = [] then
    .error "Cash flows array cannot be empty"
  else
    let raw := rawPayback initialInvestment cashFlows
    let truthy : Bool := match raw with
      | some v => !(v = 0)
      | none => false
    .ok
      { initialInvestment := initialInvestment
        paybackPeriod :=
          if truthy then raw.map round2 else none
        paybackInYears :=
          if truthy then raw.map (fun v => ⌊v⌋) else none
        paybackInMonths :=
          if truthy then raw.map (fun v => jsRound (jsMod v 1 * 12)) else none
        interp :=
          if truthy then "Investment recoverable"
          else "Investment not recoverable within given period"
        cashFlowAnalysis := pbEntries (-initialInvestment) 0 cashFlows }

/-- The discounted payback loop of `calculateDiscountedPaybackPeriod`;
`k` is the 1-based period used for discounting (the JavaScript loop index
is `k - 1`). -/
def dpbLoop (rate : ℚ) (cum : ℚ) : ℕ → List ℚ → Option ℚ
  | _, [] => none
  | k, f :: fs =>
      let d := f / qpow (1 + rate) k
      if 0 ≤ cum + d then some ((k : ℚ) - 1 + jsAbs cum / d)
      else dpbLoop rate (cum + d) (k + 1) fs

/-- The raw discounted payback value. -/
def rawDiscPayback (initialInvestment : ℚ) (cashFlows : List ℚ)
    (discountRate : ℚ) : Option ℚ :=
  dpbLoop discountRate (-initialInvestment) 1 cashFlows

/-- One entry of the `discountedCashFlowAnalysis` array. -/
structure DPBEntry where
  period : ℕ
  originalCashFlow : ℚ
  discountedCashFlow : ℚ
  cumulativeDiscountedCashFlow : ℚ
  deriving Repr, DecidableEq

/-- The `discountedCashFlowAnalysis` array (stops at the `break`). -/
def dpbEntries (rate : ℚ) (cum : ℚ) : ℕ → List ℚ → List DPBEntry
  | _, [] => []
  | k, f :: fs =>
      let d := f / qpow (1 + rate) k
      ⟨k, f, round2 d, round2 (cum + d)⟩ ::
        (if 0 ≤ cum + d then [] else dpbEntries rate (cum + d) (k + 1) fs)

/-- Result record of `calculateDiscountedPaybackPeriod`. -/
structure DiscPaybackResult where
  initialInvestment : ℚ
  discountRate : ℚ
  paybackPeriod : Option ℚ
  paybackInYears : Option ℤ
  paybackInMonths : Option ℤ
  interp : String
  discountedCashFlowAnalysis : List DPBEntry
  deriving Repr, DecidableEq

/-- `FinancialAnalysisService.calculateDiscountedPaybackPeriod`. -/
def calculateDiscountedPaybackPeriod (initialInvestment : ℚ)
    (cashFlows : List ℚ) (discountRate : ℚ) :
    Except String DiscPaybackResult :=
  if cashFlows = [] then
    .error "Cash flows array cannot be empty"
  else
    let raw := rawDiscPayback initialInvestment cashFlows discountRate
    let truthy : Bool := match raw with
      | some v => !(v = 0)
      | none => false
    .ok
      { initialInvestment := initialInvestment
        discountRate := discountRate * 100
        paybackPeriod :=
          if truthy then raw.map round2 else none
        paybackInYears :=
          if truthy then raw.map (fun v => ⌊v⌋) else none
        paybackInMonths :=
          if truthy then raw.map (fun v => jsRound (jsMod v 1 * 12)) else none
        interp :=
          if truthy then "Discounted investment recoverable"
          else "Discounted investment not recoverable within given period"
        discountedCashFlowAnalysis :=
          dpbEntries discountRate (-initialInvestment) 1 cashFlows }

/-! ## Risk Management Service (`riskManagement.js`)

`RiskManagementService.decisionTreeAnalysis`, `evaluateFormula` and the
Monte Carlo trial loop. -/

/-- Node tags of the decision-tree structure: the source distinguishes
`'outcome'` (terminal), `'chance'` and `'decision'` via `node.type`. -/
inductive NodeType where
  | outcome
  | chance
  | decision
  deriving Repr, DecidableEq

/-- A decision-tree node as the JavaScript object: a `name`, a type tag, a
terminal `value`, a branch `probability` (read by a `chance` parent) and a
`branches` array. -/
inductive JSNode where
  | mk (name : String) (ntype : NodeType) (value : ℚ) (probability : ℚ)
      (branches : List JSNode)

/-- Node name. -/
def JSNode.name : JSNode → String
  | .mk n _ _ _ _ => n

/-- Node type tag. -/
def JSNode.ntype : JSNode → NodeType
  | .mk _ t _ _ _ => t

/-- Terminal value. -/
def JSNode.value : JSNode → ℚ
  | .mk _ _ v _ _ => v

/-- Branch probability. -/
def JSNode.probability : JSNode → ℚ
  | .mk _ _ _ p _ => p

/-- Child branches. -/
def JSNode.branches : JSNode → List JSNode
  | .mk _ _ _ _ bs => bs

/-- What `analyzeNode` returns, restricted to the fields the analysis
propagates upward: the computed `expectedValue` and, for decision nodes,
the `bestDecision` branch name. -/
structure ARes where
  expectedValue : ℚ
  bestDecision : Option String
  deriving Repr, DecidableEq

/-- The `reduce` callback selecting the best alternative of a decision
node: keep the current best unless the candidate has a strictly larger
expected value (ties keep the earlier branch). -/
def pickBest (best cur : String × ℚ) : String × ℚ :=
  if best.2 < cur.2 then cur else best

mutual

/-- The recursive `analyzeNode` closure inside `decisionTreeAnalysis`.
`none` models a thrown JavaScript `TypeError`: the only way the original
code can fail is `[].reduce` (no initial value) on a decision node with an
empty `branches` array.  An `outcome` node returns its `value` (any
children are ignored); a `chance` node returns the probability-weighted
sum of its branch results rounded to two decimals (an empty sum is `0`);
a `decision` node returns the alternative with the largest expected value
(ties keep the earlier branch, as `reduce` with a strict `>` does). -/
def analyzeNode : JSNode → Option ARes
  | .mk _ t v _ bs =>
      match t with
      | .outcome => some ⟨v, none⟩
      | .chance =>
          match chanceSum bs with
          | none => none
          | some s => some ⟨round2 s, none⟩
      | .decision =>
          match altList bs with
          | none => none
          | some [] => none
          | some (a :: rest) =>
              let best := rest.foldl pickBest a
              some ⟨best.2, some best.1⟩

/-- `expectedValue += branch.probability * result.expectedValue` summed
over a chance node's branches (rational addition is associative and
commutative, so the right-nested sum matches the JavaScript accumulator). -/
def chanceSum : List JSNode → Option ℚ
  | [] => some 0
  | b :: bs =>
      match analyzeNode b, chanceSum bs with
      | some r, some s => some (b.probability * r.expectedValue + s)
      | _, _ => none

/-- The `alternatives` array of a decision node: each branch name paired
with its recursively computed expected value. -/
def altList : List JSNode → Option (List (String × ℚ))
  | [] => some []
  | b :: bs =>
      match analyzeNode b, altList bs with
      | some r, some rest => some ((b.name, r.expectedValue) :: rest)
      | _, _ => none

end

/-- Result of `decisionTreeAnalysis`: the root expected value and the
`recommendation` (the root `bestDecision`, which is `undefined` unless the
root is a decision node). -/
structure DTResult where
  expectedValue : ℚ
  recommendation : Option String
  deriving Repr, DecidableEq

/-- `RiskManagementService.decisionTreeAnalysis` applied to
`treeStructure.root`. -/
def decisionTreeAnalysis (root : JSNode) : Option DTResult :=
  (analyzeNode root).map (fun a => ⟨a.expectedValue, a.bestDecision⟩)

/-- Abstract decision tree, the §3 `DecisionTreeNode` tagged variant:
`leaf` (terminal value), `chance` (probability-labelled children),
`choice` (named alternatives). -/
inductive DTree where
  | leaf (v : ℚ)
  | chance (branches : List (ℚ × DTree))
  | choice (branches : List (String × DTree))

mutual

/-- Spec-side backward induction (with the two-decimal rounding the
implementation applies at chance nodes): a terminal returns its value, a
chance node the probability-weighted sum of its children, a decision node
the maximum expected value among its children. -/
def specEV : DTree → ℚ
  | .leaf v => v
  | .chance bs => round2 (specChanceSum bs)
  | .choice bs =>
      match specChoiceEVs bs with
      | [] => 0
      | e :: es => es.foldl max e

/-- Probability-weighted sum of the children of a chance node. -/
def specChanceSum : List (ℚ × DTree) → ℚ
  | [] => 0
  | pb :: rest => pb.1 * specEV pb.2 + specChanceSum rest

/-- Expected values of the alternatives of a decision node. -/
def specChoiceEVs : List (String × DTree) → List ℚ
  | [] => []
  | nb :: rest => specEV nb.2 :: specChoiceEVs rest

end

mutual

/-- View of a `JSNode` as an abstract `DTree`. -/
def absNode : JSNode → DTree
  | .mk _ .outcome v _ _ => .leaf v
  | .mk _ .chance _ _ bs => .chance (absChanceBranches bs)
  | .mk _ .decision _ _ bs => .choice (absChoiceBranches bs)

/-- Abstract the branches of a chance node. -/
def absChanceBranches : List JSNode → List (ℚ × DTree)
  | [] => []
  | b :: bs => (b.probability, absNode b) :: absChanceBranches bs

/-- Abstract the branches of a decision node. -/
def absChoiceBranches : List JSNode → List (String × DTree)
  | [] => []
  | b :: bs => (b.name, absNode b) :: absChoiceBranches bs

end

mutual

/-- Structural invariant under which `decisionTreeAnalysis` cannot crash:
every `decision` node (recursively) has at least one branch. -/
def wellFormed : JSNode → Prop
  | .mk _ t _ _ bs => (t = .decision → bs ≠ []) ∧ wellFormedList bs

/-- All nodes of a branch list are well-formed. -/
def wellFormedList : List JSNode → Prop
  | [] => True
  | b :: bs => wellFormed b ∧ wellFormedList bs

end

/-! ### Monte Carlo formula evaluation -/

/-- Arithmetic formula AST, standing for the `mathjs` expression string
handed to `evaluateFormula` (e.g. `revenue - costs`). -/
inductive Expr where
  | num (q : ℚ)
  | var (s : String)
  | neg (a : Expr)
  | add (a b : Expr)
  | sub (a b : Expr)
  | mul (a b : Expr)
  | div (a b : Expr)
  deriving Repr, DecidableEq

/-- A JavaScript / mathjs number: a finite double (modelled exactly as a
rational), one of the two infinities, or `NaN`.  Negative zero is not
distinguished from zero. -/
inductive JSVal where
  | num (q : ℚ)
  | inf
  | negInf
  | nan
  deriving Repr, DecidableEq

/-- Negation on `JSVal`. -/
def jsvNeg : JSVal → JSVal
  | .num q => .num (-q)
  | .inf => .negInf
  | .negInf => .inf
  | .nan => .nan

/-- Addition on `JSVal` (IEEE rules: `inf + (-inf) = NaN`). -/
def jsvAdd : JSVal → JSVal → JSVal
  | .num a, .num b => .num (a + b)
  | .nan, _ => .nan
  | _, .nan => .nan
  | .inf, .negInf => .nan
  | .negInf, .inf => .nan
  | .inf, _ => .inf
  | _, .inf => .inf
  | .negInf, _ => .negInf
  | _, .negInf => .negInf

/-- Subtraction on `JSVal`. -/
def jsvSub (a b : JSVal) : JSVal := jsvAdd a (jsvNeg b)

/-- Multiplication on `JSVal` (IEEE rules: `0 * inf = NaN`). -/
def jsvMul : JSVal → JSVal → JSVal
  | .num a, .num b => .num (a * b)
  | .nan, _ => .nan
  | _, .nan => .nan
  | .inf, .num b => if b = 0 then .nan else if 0 < b then .inf else .negInf
  | .num a, .inf => if a = 0 then .nan else if 0 < a then .inf else .negInf
  | .negInf, .num b => if b = 0 then .nan else if 0 < b then .negInf else .inf
  | .num a, .negInf => if a = 0 then .nan else if 0 < a then .negInf else .inf
  | .inf, .inf => .inf
  | .inf, .negInf => .negInf
  | .negInf, .inf => .negInf
  | .negInf, .negInf => .inf

/-- Division on `JSVal` (IEEE rules modulo the sign of zero:
`x / 0` is `±inf` for `x ≠ 0` and `NaN` for `x = 0`). -/
def jsvDiv : JSVal → JSVal → JSVal
  | .num a, .num b =>
      if b = 0 then (if a = 0 then .nan else if 0 < a then .inf else .negInf)
      else .num (a / b)
  | .nan, _ => .nan
  | _, .nan => .nan
  | .inf, .num _ => .inf
  | .negInf, .num _ => .negInf
  | .num _, .inf => .num 0
  | .num _, .negInf => .num 0
  | .inf, .inf => .nan
  | .inf, .negInf => .nan
  | .negInf, .inf => .nan
  | .negInf, .negInf => .nan

/-- The variable-substitution pass of `evaluateFormula`: the JavaScript
code replaces every occurrence of each declared variable name in the
formula string by its drawn numeric value; undeclared variables remain
symbolic. -/
def substVars (vars : List (String × ℚ)) : Expr → Expr
  | .num q => .num q
  | .var s =>
      match vars.lookup s with
      | some v => .num v
      | none => .var s
  | .neg a => .neg (substVars vars a)
  | .add a b => .add (substVars vars a) (substVars vars b)
  | .sub a b => .sub (substVars vars a) (substVars vars b)
  | .mul a b => .mul (substVars vars a) (substVars vars b)
  | .div a b => .div (substVars vars a) (substVars vars b)

/-- `math.evaluate` on the substituted expression: a residual (undeclared)
variable is an undefined symbol and throws; arithmetic never throws, it
follows IEEE rules via `JSVal`. -/
def mathEval : Expr → Except String JSVal
  | .num q => .ok (.num q)
  | .var s => .error ("Undefined symbol " ++ s)
  | .neg a => do pure (jsvNeg (← mathEval a))
  | .add a b => do pure (jsvAdd (← mathEval a) (← mathEval b))
  | .sub a b => do pure (jsvSub (← mathEval a) (← mathEval b))
  | .mul a b => do pure (jsvMul (← mathEval a) (← mathEval b))
  | .div a b => do pure (jsvDiv (← mathEval a) (← mathEval b))

/-- `RiskManagementService.evaluateFormula`: substitute the scenario values
into the formula, evaluate, and on any thrown error return the number `0`
(the `catch` block). -/
def evaluateFormula (formula : Expr) (vars : List (String × ℚ)) : JSVal :=
  match mathEval (substVars vars formula) with
  | .ok v => v
  | .error _ => .num 0

/-- The trial loop of `monteCarloSimulation`, with the random draws made
explicit: given the list of per-trial scenarios (one drawn value per
declared variable), each trial pushes `evaluateFormula formula scenario`
into the results array. -/
def monteCarloTrialOutcomes (formula : Expr)
    (scenarios : List (List (String × ℚ))) : List JSVal :=
  scenarios.map (fun scenario => evaluateFormula formula scenario)

/-! ## Cost Estimation Service (`costEstimation.js`) and its route

`CostEstimationService.cocomoEstimation`, `expertJudgmentEstimation`,
`regressionAnalysisEstimation`, plus the validation guard of
the COCOMO POST route on `/cost-estimation/cocomo` in `calculations.js`.
Quantities computed through `Math.pow` with a fractional exponent or
`Math.sqrt` are irrational in general, and are modelled over `ℝ`. -/

/-- `Math.round` over the reals. -/
noncomputable def jsRoundR (x : ℝ) : ℤ := ⌊x + 1/2⌋

/-- Two-decimal rounding over the reals. -/
noncomputable def round2R (x : ℝ) : ℝ := (jsRoundR (100 * x) : ℝ) / 100

/-- One `(a, b, c, d)` tuple of the `cocomoConstants` table. -/
structure CocomoConstants where
  a : ℝ
  b : ℝ
  c : ℝ
  d : ℝ

/-- The `cocomoConstants` lookup with its `|| cocomoConstants.organic`
fallback for an unknown project type. -/
def cocomoConstants (projectType : String) : CocomoConstants :=
  if projectType = "semidetached" then ⟨3.0, 1.12, 2.5, 0.35⟩
  else if projectType = "embedded" then ⟨3.6, 1.20, 2.5, 0.32⟩
  else ⟨2.4, 1.05, 2.5, 0.38⟩

/-- Result record of `cocomoEstimation`. -/
structure CocomoResult where
  projectType : String
  kloc : ℚ
  effort : ℝ
  developmentTime : ℝ
  averageTeamSize : ℝ
  totalCost : ℤ
  productivity : ℝ
  costPerPersonMonth : ℚ

/-- `CostEstimationService.cocomoEstimation`: `effort = a·kloc^b`,
`schedule = c·effort^d`, cost at 8000 per person-month.  The service
itself performs no input validation.  (For `kloc ≤ 0` the JavaScript
`Math.pow` yields `NaN`/`0` where `Real.rpow` is defined differently;
every claim about this function goes through the route guard below,
which only admits `kloc ≥ 0.1`.) -/
noncomputable def cocomoEstimation (kloc : ℚ) (projectType : String)
    (_teamSize : Option ℤ) : CocomoResult :=
  let constants := cocomoConstants projectType
  let effort : ℝ := constants.a * (kloc : ℝ) ^ constants.b
  let developmentTime : ℝ := constants.c * effort ^ constants.d
  let averageTeamSize := effort / developmentTime
  let costPerPersonMonth : ℚ := 8000
  let totalCost := effort * (costPerPersonMonth : ℝ)
  let productivity := (kloc : ℝ) / effort
  { projectType := projectType
    kloc := kloc
    effort := round2R effort
    developmentTime := round2R developmentTime
    averageTeamSize := round2R averageTeamSize
    totalCost := jsRoundR totalCost
    productivity := round2R productivity
    costPerPersonMonth := costPerPersonMonth }

/-- The `express-validator` guard of the COCOMO route
(`calculations.js`): `kloc` must be a float with `min: 0.1`, the project
type must be one of the three known ones, and an optional `teamSize` must
be an integer `≥ 1`; any violation is answered with a 400 `Validation
failed` response and the service is never called. -/
noncomputable def cocomoRoute (kloc : ℚ) (projectType : String)
    (teamSize : Option ℤ) : Except String CocomoResult :=
  if kloc < 1 / 10 then .error "Validation failed"
  else if projectType ∉ ["organic", "semidetached", "embedded"] then
    .error "Validation failed"
  else if (match teamSize with | some t => decide (t < 1) | none => false) = true then
    .error "Validation failed"
  else .ok (cocomoEstimation kloc projectType teamSize)

/-- Ascending numeric sort, the effect of `array.sort((a, b) => a - b)`.
Both are stable, so they agree as functions. -/
def jsSortAsc (l : List ℚ) : List ℚ := l.insertionSort (· ≤ ·)

/-- Minimum of a list, `Math.min(...values)` over a non-empty array. -/
def listMin : List ℚ → ℚ
  | [] => 0
  | x :: xs => xs.foldl min x

/-- Maximum of a list, `Math.max(...values)` over a non-empty array. -/
def listMax : List ℚ → ℚ
  | [] => 0
  | x :: xs => xs.foldl max x

/-- The `statistics` sub-record of `expertJudgmentEstimation`. -/
structure ExpertStats where
  mean : ℚ
  median : ℚ
  standardDeviation : ℝ
  minimum : ℚ
  maximum : ℚ

/-- Result record of `expertJudgmentEstimation`. -/
structure ExpertResult where
  numberOfExperts : ℕ
  originalEstimates : List ℚ
  stats : ExpertStats
  filteredEstimates : List ℚ
  adjustedMean : ℚ
  pertEstimate : ℚ
  confidenceLow : ℝ
  confidenceHigh : ℝ

/-- `CostEstimationService.expertJudgmentEstimation`.  The JavaScript
`estimates.sort(...)` sorts the caller-supplied array **in place** and
`sortedEstimates` aliases it, so every later read of `estimates`
(mean, variance, filter, min/max, the `originalEstimates` result field)
sees the sorted array.  The second component of the returned pair models
the state of the caller\'s array after the call.  The outlier filter
`Math.abs(est - mean) <= 2 * stdDev` (with `stdDev = sqrt variance`) is
written in the equivalent squared form `(est - mean)^2 ≤ 4 * variance`,
which keeps it decidable; `expert_filter_sq_iff` below proves the
equivalence. -/
noncomputable def expertJudgmentEstimation (estimates : List ℚ) :
    Except String (ExpertResult × List ℚ) :=
  if estimates = [] then .error "At least one estimate is required"
  else
    let sortedEstimates := jsSortAsc estimates
    let n := estimates.length
    let mean := sortedEstimates.sum / n
    let median :=
      if n % 2 = 0 then
        (sortedEstimates.getD (n / 2 - 1) 0 + sortedEstimates.getD (n / 2) 0) / 2
      else sortedEstimates.getD (n / 2) 0
    let variance := (sortedEstimates.map (fun v => qpow (v - mean) 2)).sum / n
    let stdDev : ℝ := Real.sqrt (variance : ℝ)
    let filteredEstimates :=
      sortedEstimates.filter (fun est => qpow (est - mean) 2 ≤ 4 * variance)
    let adjustedMean :=
      if filteredEstimates = [] then mean
      else filteredEstimates.sum / filteredEstimates.length
    let optimistic := listMin sortedEstimates
    let pessimistic := listMax sortedEstimates
    let pertEstimate := (optimistic + 4 * median + pessimistic) / 6
    .ok
      ({ numberOfExperts := n
         originalEstimates := sortedEstimates
         stats :=
           { mean := round2 mean
             median := round2 median
             standardDeviation := round2R stdDev
             minimum := optimistic
             maximum := pessimistic }
         filteredEstimates := filteredEstimates
         adjustedMean := round2 adjustedMean
         pertEstimate := round2 pertEstimate
         confidenceLow := round2R ((adjustedMean : ℝ) - stdDev)
         confidenceHigh := round2R ((adjustedMean : ℝ) + stdDev) },
       sortedEstimates)

/-- Result record of `regressionAnalysisEstimation` (the formatted
`equation` display string is not modelled). -/
structure RegressionResult where
  intercept : ℚ
  slope : ℚ
  projectSize : ℚ
  predictedEffort : ℚ
  correlationCoefficient : ℝ
  rSquared : ℝ
  standardError : ℝ
  confidenceLower : ℝ
  confidenceUpper : ℝ
  dataPoints : ℕ

/-- `CostEstimationService.regressionAnalysisEstimation`: ordinary least
squares over `(size, effort)` pairs.  The **only** validation is the
`length < 2` check; with zero-variance sizes the slope denominator
`n·ΣX² − (ΣX)²` is `0` and JavaScript divides by zero (yielding
`±Infinity`/`NaN`, modelled here by the `ℚ` convention `x / 0 = 0`)
without throwing. -/
noncomputable def regressionAnalysisEstimation
    (historicalData : List (ℚ × ℚ)) (projectSize : ℚ) :
    Except String RegressionResult :=
  if historicalData.length < 2 then
    .error "At least 2 historical data points are required"
  else
    let n : ℚ := historicalData.length
    let sumX := (historicalData.map (fun p => p.1)).sum
    let sumY := (historicalData.map (fun p => p.2)).sum
    let sumXY := (historicalData.map (fun p => p.1 * p.2)).sum
    let sumX2 := (historicalData.map (fun p => p.1 * p.1)).sum
    let b := (n * sumXY - sumX * sumY) / (n * sumX2 - sumX * sumX)
    let a := (sumY - b * sumX) / n
    let predictedEffort := a + b * projectSize
    let sumY2 := (historicalData.map (fun p => p.2 * p.2)).sum
    let numer := n * sumXY - sumX * sumY
    let denom : ℝ :=
      Real.sqrt (((n * sumX2 - sumX * sumX) * (n * sumY2 - sumY * sumY) : ℚ) : ℝ)
    let correlationCoefficient : ℝ := if denom = 0 then 0 else (numer : ℝ) / denom
    let rSquared := correlationCoefficient * correlationCoefficient
    let ssr := (historicalData.map
      (fun p => qpow (p.2 - (a + b * p.1)) 2)).sum
    let standardError : ℝ := Real.sqrt ((ssr : ℝ) / ((n : ℝ) - 2))
    .ok
      { intercept := round2 a
        slope := round2 b
        projectSize := projectSize
        predictedEffort := round2 predictedEffort
        correlationCoefficient := round2R correlationCoefficient
        rSquared := round2R rSquared
        standardError := round2R standardError
        confidenceLower := round2R ((predictedEffort : ℝ) - 1.96 * standardError)
        confidenceUpper := round2R ((predictedEffort : ℝ) + 1.96 * standardError)
        dataPoints := historicalData.length }

/-! ## Helper lemmas -/

/-- `jsAbs` is the absolute value. -/
lemma jsAbs_eq_abs (q : ℚ) : jsAbs q = |q| := by
  unfold jsAbs
  rcases lt_trichotomy q 0 with h | h | h
  · rw [if_pos h, abs_of_neg h]
  · simp [h]
  · rw [if_neg (not_lt.2 h.le), abs_of_pos h]

/-- `qpow` is the monoid power. -/
lemma qpow_eq_pow (q : ℚ) (k : ℕ) : qpow q k = q ^ k := by
  induction k with
  | zero => rfl
  | succ n ih => rw [qpow, ih, pow_succ]

/-- Two-decimal rounding moves a value by at most `1/200`. -/
lemma abs_round2_sub_le (x : ℚ) : |round2 x - x| ≤ 1 / 200 := by
  unfold round2 jsRound
  rw [abs_le]
  have h1 : (⌊100 * x + 1 / 2⌋ : ℚ) ≤ 100 * x + 1 / 2 := Int.floor_le _
  have h2 : 100 * x + 1 / 2 - 1 < (⌊100 * x + 1 / 2⌋ : ℚ) := Int.sub_one_lt_floor _
  constructor <;> [nlinarith; nlinarith]

/-- Two-decimal rounding is monotone. -/
lemma round2_mono {x y : ℚ} (h : x ≤ y) : round2 x ≤ round2 y := by
  unfold round2 jsRound
  have hf : (⌊100 * x + 1 / 2⌋ : ℤ) ≤ ⌊100 * y + 1 / 2⌋ :=
    Int.floor_le_floor (by linarith)
  have hq : ((⌊100 * x + 1 / 2⌋ : ℤ) : ℚ) ≤ ((⌊100 * y + 1 / 2⌋ : ℤ) : ℚ) :=
    Int.cast_le.2 hf
  exact (div_le_div_iff_of_pos_right (by norm_num)).2 hq


/-! ## Claim C7: COCOMO input validation -/

/-- C7: a request with `kloc ≤ 0` is rejected by the COCOMO route
validation (`isFloat({ min: 0.1 })`) before `cocomoEstimation` runs, so
no estimation record is produced. -/
theorem cocomo_rejects_nonpositive_kloc (kloc : ℚ) (projectType : String)
    (teamSize : Option ℤ) (h : kloc ≤ 0) :
    cocomoRoute kloc projectType teamSize = .error "Validation failed" := by
  unfold cocomoRoute
  rw [if_pos (lt_of_le_of_lt h (by norm_num))]

/-- Witness for `cocomo_rejects_nonpositive_kloc` at `kloc = 0`. -/
theorem cocomo_rejects_nonpositive_kloc_witness :
    (0 : ℚ) ≤ 0 ∧ cocomoRoute 0 "organic" none = .error "Validation failed" :=
  ⟨le_refl 0, cocomo_rejects_nonpositive_kloc 0 "organic" none (le_refl 0)⟩

/-! ## Claim C6: regression validation -/

/-- C6 counterexample: on the zero-variance input `[(1,10), (1,20)]`
(both sizes equal, so the slope denominator `n·ΣX² − (ΣX)² = 0`),
`regressionAnalysisEstimation` does **not** fail: it returns a numeric
record, computed through a division by zero. -/
theorem regression_zero_variance_no_error :
    ((2 : ℚ) * (([((1 : ℚ), (10 : ℚ)), (1, 20)].map (fun p => p.1 * p.1)).sum) -
        (([((1 : ℚ), (10 : ℚ)), (1, 20)].map (fun p => p.1)).sum) *
        (([((1 : ℚ), (10 : ℚ)), (1, 20)].map (fun p => p.1)).sum) = 0) ∧
    (regressionAnalysisEstimation [(1, 10), (1, 20)] 2).isOk = true := by
  constructor
  · norm_num
  · rfl

/-- C6 amended: `regressionAnalysisEstimation` fails exactly on fewer than
two data points; for two or more points it always returns a record — there
is no zero-variance (degenerate-input) check. -/
theorem regression_validation (historicalData : List (ℚ × ℚ))
    (projectSize : ℚ) :
    (historicalData.length < 2 →
      regressionAnalysisEstimation historicalData projectSize =
        .error "At least 2 historical data points are required") ∧
    (2 ≤ historicalData.length →
      (regressionAnalysisEstimation historicalData projectSize).isOk = true) := by
  constructor
  · intro h
    unfold regressionAnalysisEstimation
    rw [if_pos h]
  · intro h
    unfold regressionAnalysisEstimation
    rw [if_neg (by omega)]
    rfl

/-- Witness for `regression_validation`: both guard directions at concrete
inputs. -/
theorem regression_validation_witness :
    (([] : List (ℚ × ℚ)).length < 2 ∧
      regressionAnalysisEstimation [] 0 =
        .error "At least 2 historical data points are required") ∧
    (2 ≤ ([((1 : ℚ), (10 : ℚ)), (2, 20)] : List (ℚ × ℚ)).length ∧
      (regressionAnalysisEstimation [(1, 10), (2, 20)] 2).isOk = true) :=
  ⟨⟨by decide, (regression_validation [] 0).1 (by decide)⟩,
   ⟨by decide, (regression_validation [(1, 10), (2, 20)] 2).2 (by decide)⟩⟩


/-! ## Claim C9: expert judgment sorts the input in place -/

/-- C9: `expertJudgmentEstimation` sorts the caller-supplied estimates
array in place — after the call the array (second component) is the
ascending sort of the input, and the returned `originalEstimates` field is
that same sorted array, not the input order (witness: `[3,1]` comes back
as `[1,3]`). -/
theorem expert_judgment_sorts_in_place (estimates : List ℚ)
    (h : estimates ≠ []) :
    (expertJudgmentEstimation estimates).map
        (fun p => (p.1.originalEstimates, p.2)) =
      .ok (jsSortAsc estimates, jsSortAsc estimates) ∧
    List.Sorted (· ≤ ·) (jsSortAsc estimates) ∧
    (jsSortAsc estimates).Perm estimates ∧
    jsSortAsc [3, 1] ≠ [3, 1] := by
  refine ⟨?_, List.sorted_insertionSort _ _, List.perm_insertionSort _ _, ?_⟩
  · unfold expertJudgmentEstimation
    rw [if_neg h]
    rfl
  · intro hcontra
    have h31 : jsSortAsc [3, 1] = [1, 3] := by
      with_unfolding_all decide
    rw [h31] at hcontra
    exact absurd (congrArg (fun l => l.headI) hcontra) (by norm_num)

/-- Witness for `expert_judgment_sorts_in_place` at `[3, 1]`. -/
theorem expert_judgment_sorts_in_place_witness :
    ([3, 1] : List ℚ) ≠ [] ∧
    (expertJudgmentEstimation [3, 1]).map
        (fun p => (p.1.originalEstimates, p.2)) = .ok ([1, 3], [1, 3]) := by
  have h31 : jsSortAsc [3, 1] = [1, 3] := by
    with_unfolding_all decide
  have h := expert_judgment_sorts_in_place [3, 1] (by simp)
  exact ⟨by simp, by rw [h.1, h31]⟩

/-! ## Claim C10: a zero payback value is conflated with null -/

/-- C10: when the loop computes a payback value of exactly `0`, the
JavaScript truthiness test `paybackPeriod ? _ : _` treats it like `null`:
both payback functions then report `paybackPeriod = null` with the
not-recoverable interpretation. -/
theorem payback_zero_reported_as_null (initialInvestment : ℚ)
    (cashFlows : List ℚ) (discountRate : ℚ) :
    (rawPayback initialInvestment cashFlows = some 0 → cashFlows ≠ [] →
      ∃ r, calculatePaybackPeriod initialInvestment cashFlows = .ok r ∧
        r.paybackPeriod = none ∧
        r.interp = "Investment not recoverable within given period") ∧
    (rawDiscPayback initialInvestment cashFlows discountRate = some 0 →
      cashFlows ≠ [] →
      ∃ r, calculateDiscountedPaybackPeriod initialInvestment cashFlows
            discountRate = .ok r ∧
        r.paybackPeriod = none ∧
        r.interp =
          "Discounted investment not recoverable within given period") := by
  constructor
  · intro hraw hne
    unfold calculatePaybackPeriod
    rw [if_neg hne]
    exact ⟨_, rfl, by simp [hraw], by simp [hraw]⟩
  · intro hraw hne
    unfold calculateDiscountedPaybackPeriod
    rw [if_neg hne]
    exact ⟨_, rfl, by simp [hraw], by simp [hraw]⟩

/-- Witness for `payback_zero_reported_as_null`: with
`initialInvestment = 0` and flows `[50]` (rate `0.1` for the discounted
variant) the computed payback value is exactly `0`, and both functions
report `null`. -/
theorem payback_zero_reported_as_null_witness :
    (rawPayback 0 [50] = some 0 ∧
      ∃ r, calculatePaybackPeriod 0 [50] = .ok r ∧
        r.paybackPeriod = none ∧
        r.interp = "Investment not recoverable within given period") ∧
    (rawDiscPayback 0 [50] (1 / 10) = some 0 ∧
      ∃ r, calculateDiscountedPaybackPeriod 0 [50] (1 / 10) = .ok r ∧
        r.paybackPeriod = none ∧
        r.interp =
          "Discounted investment not recoverable within given period") := by
  have h1 : rawPayback 0 [50] = some 0 := by with_unfolding_all decide
  have h2 : rawDiscPayback 0 [50] (1 / 10) = some 0 := by
    with_unfolding_all decide
  have h := payback_zero_reported_as_null 0 [50] (1 / 10)
  exact ⟨⟨h1, h.1 h1 (by simp)⟩, ⟨h2, h.2 h2 (by simp)⟩⟩


/-! ## Claim C4: formula evaluation errors are coerced to zero -/

/-- C4 counterexample: a Monte Carlo trial whose formula is just the
variable `x` with an empty variables map does not fail — the undefined
symbol error is caught and the trial outcome is the number `0`; likewise
a non-finite value (`1/0 = Infinity`) is returned as the outcome, not
raised as an error. -/
theorem formula_error_coerced_to_zero :
    evaluateFormula (.var "x") [] = .num 0 ∧
    (mathEval (substVars [] (.var "x"))).isOk = false ∧
    evaluateFormula (.div (.num 1) (.num 0)) [] = JSVal.inf ∧
    monteCarloTrialOutcomes (.var "x") [[]] = [.num 0] := by
  refine ⟨rfl, rfl, ?_, rfl⟩
  with_unfolding_all decide

/-- C4 amended: whenever `math.evaluate` throws on the substituted
formula (for example a reference to an undeclared variable), the `catch`
block of `evaluateFormula` silently returns the sentinel `0`; when it does
not throw, the value — finite or not — is returned unchanged. -/
theorem formula_eval_catch_policy (formula : Expr)
    (vars : List (String × ℚ)) :
    ((mathEval (substVars vars formula)).isOk = false →
      evaluateFormula formula vars = .num 0) ∧
    (∀ v, mathEval (substVars vars formula) = .ok v →
      evaluateFormula formula vars = v) := by
  constructor
  · intro h
    unfold evaluateFormula
    cases heq : mathEval (substVars vars formula) with
    | ok v => rw [heq] at h; simp [Except.isOk, Except.toBool] at h
    | error e => rfl
  · intro v hv
    unfold evaluateFormula
    rw [hv]

/-- Witness for `formula_eval_catch_policy` at the undeclared variable
`x` and at the constant formula `7`. -/
theorem formula_eval_catch_policy_witness :
    ((mathEval (substVars [] (.var "x"))).isOk = false ∧
      evaluateFormula (.var "x") [] = .num 0) ∧
    (mathEval (substVars [] (.num 7)) = .ok (.num 7) ∧
      evaluateFormula (.num 7) [] = .num 7) :=
  ⟨⟨rfl, (formula_eval_catch_policy (.var "x") []).1 rfl⟩,
   ⟨rfl, (formula_eval_catch_policy (.num 7) []).2 (.num 7) rfl⟩⟩

/-! ## Claim C3: there is no malformed-tree validation -/

/-- C3 counterexample: a chance node with zero children is accepted by
`decisionTreeAnalysis` and evaluates to expected value `0` — no
malformed-tree error is raised (its `value` field `5` is also ignored). -/
theorem malformed_chance_not_rejected :
    decisionTreeAnalysis (JSNode.mk "c" .chance 5 0 []) =
      some ⟨0, none⟩ := by
  with_unfolding_all decide

/-- C3 amended: `decisionTreeAnalysis` performs no structural validation
and has no malformed-tree error: a chance node with zero children yields
expected value `0`, a terminal node with children ignores them and yields
its value, and only a decision node with zero children fails — with the
generic JavaScript `reduce`-of-empty-array `TypeError`, not a dedicated
error. -/
theorem no_malformed_tree_validation :
    (∀ nm v p, analyzeNode (JSNode.mk nm .chance v p []) = some ⟨0, none⟩) ∧
    (∀ nm v p bs,
      analyzeNode (JSNode.mk nm .outcome v p bs) = some ⟨v, none⟩) ∧
    (∀ nm v p, analyzeNode (JSNode.mk nm .decision v p []) = none) := by
  refine ⟨fun nm v p => ?_, fun nm v p bs => rfl, fun nm v p => rfl⟩
  norm_num [analyzeNode, chanceSum, round2, jsRound]

/-! ## Claim C2 (counterexample): chance nodes round their expected value -/

/-- C2 counterexample: a chance node with a single branch of probability
`1/4` to a terminal worth `1/2` has probability-weighted sum `1/8`, but
`decisionTreeAnalysis` reports `13/100` (`Math.round(12.5)/100`), so a
chance node does not return the exact probability-weighted sum of its
children. -/
theorem chance_node_rounds_counterexample :
    decisionTreeAnalysis
        (JSNode.mk "c" .chance 0 0 [JSNode.mk "x" .outcome (1/2) (1/4) []]) =
      some ⟨13/100, none⟩ ∧
    (13/100 : ℚ) ≠ 1/4 * (1/2) := by
  constructor
  · with_unfolding_all decide
  · norm_num


/-! ## Claim C5: the payback walk -/

/-- Spec-side cumulative cash flow after `k` periods:
`-initialInvestment + Σ of the first k flows`. -/
def cumulAt (initialInvestment : ℚ) (flows : List ℚ) (k : ℕ) : ℚ :=
  -initialInvestment + (flows.take k).sum

/-- Spec-side first crossing: the least 0-based period index `i` whose
cumulative cash flow (after `i+1` periods) is non-negative. -/
def firstCrossIdx (initialInvestment : ℚ) (flows : List ℚ) : Option ℕ :=
  (List.range flows.length).find?
    (fun i => decide (0 ≤ cumulAt initialInvestment flows (i + 1)))

/-- Spec-side payback value: at the first crossing index `i`, the prior
cumulative magnitude over period `i+1`-s flow, linearly interpolated. -/
def specPayback (initialInvestment : ℚ) (flows : List ℚ) : Option ℚ :=
  (firstCrossIdx initialInvestment flows).map
    (fun (i : ℕ) => (i : ℚ) +
      jsAbs (cumulAt initialInvestment flows i) / flows.getD i 0)

/-- The payback loop agrees with the first-crossing characterisation. -/
lemma pbLoop_eq_find :
    ∀ (fs : List ℚ) (c : ℚ),
      pbLoop c fs =
        ((List.range fs.length).find?
            (fun i => decide (0 ≤ c + (fs.take (i + 1)).sum))).map
          (fun (i : ℕ) => (i : ℚ) + jsAbs (c + (fs.take i).sum) / fs.getD i 0)
  | [], c => by simp [pbLoop]
  | f :: fs, c => by
      rw [pbLoop]
      by_cases h : 0 ≤ c + f
      · rw [if_pos h, List.length_cons, List.range_succ_eq_map,
          List.find?_cons_of_pos _ (by simpa using h)]
        simp
      · rw [if_neg h, List.length_cons, List.range_succ_eq_map,
          List.find?_cons_of_neg _ (by simpa using h), List.find?_map,
          pbLoop_eq_find fs (c + f), Option.map_map, Option.map_map]
        have hpred :
            ((fun i => decide (0 ≤ c + ((f :: fs).take (i + 1)).sum)) ∘
                Nat.succ) =
              (fun i => decide (0 ≤ c + f + (fs.take (i + 1)).sum)) := by
          funext i
          simp [Function.comp, List.take_succ_cons, List.sum_cons, add_assoc]
        rw [hpred]
        apply Option.map_congr
        intro i _
        simp only [Function.comp, List.take_succ_cons, List.sum_cons,
          List.getD_cons_succ, ← add_assoc, Nat.succ_eq_add_one]
        push_cast
        ring

/-- C5 amended: `calculatePaybackPeriod` walks the cumulative cash flow;
the computed raw value at the first non-negative crossing `i` (0-based) is
`i + |prior cumulative| / flow`, and the reported `paybackPeriod` is that
value rounded to two decimals — except that a computed value of exactly
`0` is conflated with the never-recovered case and reported as `null`;
when the cumulative never reaches zero the function still succeeds and
reports `null`.  On `initialInvestment = 100`, flows `[50, 50, 50]`, the
result is exactly `2`. -/
theorem payback_walk_spec :
    (∀ initialInvestment flows,
      rawPayback initialInvestment flows =
        specPayback initialInvestment flows) ∧
    (∀ initialInvestment flows, flows ≠ [] →
      ∃ r, calculatePaybackPeriod initialInvestment flows = .ok r ∧
        r.paybackPeriod =
          (specPayback initialInvestment flows).bind
            (fun v => if v = 0 then none else some (round2 v))) ∧
    ((calculatePaybackPeriod 100 [50, 50, 50]).map
        (fun r => r.paybackPeriod) = .ok (some 2)) := by
  have hmain : ∀ initialInvestment flows,
      rawPayback initialInvestment flows =
        specPayback initialInvestment flows := by
    intro inv flows
    unfold rawPayback specPayback firstCrossIdx cumulAt
    exact pbLoop_eq_find flows (-inv)
  refine ⟨hmain, ?_, ?_⟩
  · intro inv flows hne
    unfold calculatePaybackPeriod
    rw [if_neg hne]
    refine ⟨_, rfl, ?_⟩
    rw [← hmain]
    cases hraw : rawPayback inv flows with
    | none => simp [hraw]
    | some v =>
        by_cases hv : v = 0
        · simp [hraw, hv]
        · simp [hraw, hv]
  · have h2 : rawPayback 100 [50, 50, 50] = some 2 := by
      with_unfolding_all decide
    have hr2 : round2 2 = 2 := by norm_num [round2, jsRound]
    unfold calculatePaybackPeriod
    rw [if_neg (by simp)]
    simp [h2, hr2, Except.map]

/-- Witness for `payback_walk_spec`: the never-recovered branch at
`initialInvestment = 100`, flows `[1]`. -/
theorem payback_walk_spec_witness :
    ([1] : List ℚ) ≠ [] ∧
    (∃ r, calculatePaybackPeriod 100 [1] = .ok r ∧
      r.paybackPeriod =
        (specPayback 100 [1]).bind
          (fun v => if v = 0 then none else some (round2 v))) :=
  ⟨by simp, payback_walk_spec.2.1 100 [1] (by simp)⟩

/-- C5 counterexample: with `initialInvestment = 0` and flows `[50]` the
first-crossing interpolation yields exactly `0` (period 1 crossing with
zero prior deficit), but the reported `paybackPeriod` is `null`, not `0`
— the claim "it returns (i−1) plus the prior cumulative magnitude over
the flow" fails at this input. -/
theorem payback_zero_value_counterexample :
    rawPayback 0 [50] = some 0 ∧
    (calculatePaybackPeriod 0 [50]).map (fun r => r.paybackPeriod) =
      .ok none := by
  have h : rawPayback 0 [50] = some 0 := by with_unfolding_all decide
  refine ⟨h, ?_⟩
  unfold calculatePaybackPeriod
  rw [if_neg (by simp)]
  simp [h, Except.map]


/-! ## Claim C8: NPV is decreasing in the discount rate -/

/-- `qpow` of a positive base is positive. -/
lemma qpow_pos {q : ℚ} (h : 0 < q) (k : ℕ) : 0 < qpow q k := by
  rw [qpow_eq_pow]
  exact pow_pos h k

/-- Discounted tails are weakly antitone in the rate. -/
lemma pvAux_le_pvAux (r1 r2 : ℚ) (h1 : 0 ≤ r1) (h12 : r1 < r2) :
    ∀ (fs : List ℚ) (k : ℕ), (∀ f ∈ fs, 0 < f) → 1 ≤ k →
      pvAux r2 k fs ≤ pvAux r1 k fs
  | [], k, _, _ => le_refl 0
  | f :: fs, k, hpos, hk => by
      rw [pvAux, pvAux]
      have hf : 0 < f := hpos f (List.mem_cons_self f fs)
      have hb1 : (0 : ℚ) < 1 + r1 := by linarith
      have hq1 : 0 < qpow (1 + r1) k := qpow_pos hb1 k
      have hqlt : qpow (1 + r1) k < qpow (1 + r2) k := by
        rw [qpow_eq_pow, qpow_eq_pow]
        exact pow_lt_pow_left₀ (by linarith) (by linarith) (by omega)
      have hhead : f / qpow (1 + r2) k ≤ f / qpow (1 + r1) k :=
        le_of_lt (div_lt_div_of_pos_left hf hq1 hqlt)
      have htail : pvAux r2 (k + 1) fs ≤ pvAux r1 (k + 1) fs :=
        pvAux_le_pvAux r1 r2 h1 h12 fs (k + 1)
          (fun g hg => hpos g (List.mem_cons_of_mem f hg)) (by omega)
      linarith

/-- Discounted sums over a non-empty all-positive flow list are strictly
antitone in the rate. -/
lemma pvAux_lt_pvAux (r1 r2 : ℚ) (h1 : 0 ≤ r1) (h12 : r1 < r2)
    (fs : List ℚ) (k : ℕ) (hne : fs ≠ []) (hpos : ∀ f ∈ fs, 0 < f)
    (hk : 1 ≤ k) : pvAux r2 k fs < pvAux r1 k fs := by
  match fs, hne with
  | f :: fs, _ =>
      rw [pvAux, pvAux]
      have hf : 0 < f := hpos f (List.mem_cons_self f fs)
      have hb1 : (0 : ℚ) < 1 + r1 := by linarith
      have hq1 : 0 < qpow (1 + r1) k := qpow_pos hb1 k
      have hqlt : qpow (1 + r1) k < qpow (1 + r2) k := by
        rw [qpow_eq_pow, qpow_eq_pow]
        exact pow_lt_pow_left₀ (by linarith) (by linarith) (by omega)
      have hhead : f / qpow (1 + r2) k < f / qpow (1 + r1) k :=
        div_lt_div_of_pos_left hf hq1 hqlt
      have htail : pvAux r2 (k + 1) fs ≤ pvAux r1 (k + 1) fs :=
        pvAux_le_pvAux r1 r2 h1 h12 fs (k + 1)
          (fun g hg => hpos g (List.mem_cons_of_mem f hg)) (by omega)
      linarith

/-- C8 amended: for a non-empty all-positive flow series and rates
`0 ≤ r1 < r2`, the unrounded NPV at `r2` is strictly below the unrounded
NPV at `r1`; the reported `npv` field (rounded to two decimals) is only
weakly decreasing. -/
theorem npv_decreasing_in_rate (initialInvestment : ℚ) (flows : List ℚ)
    (r1 r2 : ℚ) (hne : flows ≠ []) (hpos : ∀ f ∈ flows, 0 < f)
    (h1 : 0 ≤ r1) (h12 : r1 < r2) :
    npvRaw initialInvestment flows r2 < npvRaw initialInvestment flows r1 ∧
    ∀ a b, calculateNPV initialInvestment flows r1 = .ok a →
      calculateNPV initialInvestment flows r2 = .ok b →
      b.npv ≤ a.npv := by
  have hlt : pvAux r2 1 flows < pvAux r1 1 flows :=
    pvAux_lt_pvAux r1 r2 h1 h12 flows 1 hne hpos (le_refl 1)
  constructor
  · unfold npvRaw
    linarith
  · intro a b ha hb
    unfold calculateNPV at ha hb
    rw [if_neg hne, if_neg (not_lt.2 h1)] at ha
    rw [if_neg hne, if_neg (not_lt.2 (by linarith : (0 : ℚ) ≤ r2))] at hb
    injection ha with ha2
    injection hb with hb2
    rw [← ha2, ← hb2]
    exact round2_mono (by linarith)

/-- Witness for `npv_decreasing_in_rate` at `initialInvestment = 0`,
flows `[1]`, rates `0 < 1`. -/
theorem npv_decreasing_in_rate_witness :
    (([1] : List ℚ) ≠ [] ∧ (∀ f ∈ ([1] : List ℚ), 0 < f) ∧
      (0 : ℚ) ≤ 0 ∧ (0 : ℚ) < 1) ∧
    npvRaw 0 [1] 1 < npvRaw 0 [1] 0 := by
  refine ⟨⟨by simp, by simp, le_refl 0, by norm_num⟩, ?_⟩
  exact (npv_decreasing_in_rate 0 [1] 0 1 (by simp) (by simp)
    (le_refl 0) (by norm_num)).1

/-- C8 counterexample: on the all-positive series `[100]` with
`initialInvestment = 0`, the reported two-decimal `npv` is `100` both at
rate `0` and at the strictly larger rate `1/100000` — the `npv` field is
not strictly decreasing in the rate. -/
theorem npv_not_strictly_decreasing_counterexample :
    ((0 : ℚ) < 1 / 100000) ∧
    (calculateNPV 0 [100] 0).map (fun r => r.npv) = .ok 100 ∧
    (calculateNPV 0 [100] (1 / 100000)).map (fun r => r.npv) =
      .ok 100 := by
  refine ⟨by norm_num, ?_, ?_⟩ <;>
  · unfold calculateNPV
    rw [if_neg (by simp), if_neg (by norm_num)]
    simp [Except.map]
    norm_num [pvAux, qpow, round2, jsRound]


/-! ## Claim C1: the IRR round-trip

On `initialInvestment = 1000`, flows `[100]` (whose NPV has no
non-negative root), the Newton iteration diverges and falls into a
period-4 reseed cycle; the lemmas below walk the iteration one step at a
time. -/

/-- Newton step from the seed `0.1` on the divergent series. -/
lemma irrStepA (f : ℕ) :
    irrGo [-1000, 100] (f + 1) (1 / 10) = irrGo [-1000, 100] f (-109 / 10) := by
  show (if jsAbs (pvAux (1 / 10) 0 [-1000, 100]) < irrTolerance then (1 / 10 : ℚ)
    else if jsAbs (dnpvAux (1 / 10) 0 [-1000, 100]) < irrTolerance then
      irrGo [-1000, 100] f (1 / 20)
    else irrGo [-1000, 100] f
      (1 / 10 - pvAux (1 / 10) 0 [-1000, 100] / dnpvAux (1 / 10) 0 [-1000, 100]))
      = irrGo [-1000, 100] f (-109 / 10)
  norm_num [pvAux, dnpvAux, qpow, jsAbs, irrTolerance]

/-- Second Newton step of the divergent run. -/
lemma irrStepB (f : ℕ) :
    irrGo [-1000, 100] (f + 1) (-109 / 10) =
      irrGo [-1000, 100] f (-10009 / 10) := by
  show (if jsAbs (pvAux (-109 / 10) 0 [-1000, 100]) < irrTolerance then (-109 / 10 : ℚ)
    else if jsAbs (dnpvAux (-109 / 10) 0 [-1000, 100]) < irrTolerance then
      irrGo [-1000, 100] f (1 / 20)
    else irrGo [-1000, 100] f
      (-109 / 10 - pvAux (-109 / 10) 0 [-1000, 100] / dnpvAux (-109 / 10) 0 [-1000, 100]))
      = irrGo [-1000, 100] f (-10009 / 10)
  norm_num [pvAux, dnpvAux, qpow, jsAbs, irrTolerance]

/-- Third Newton step of the divergent run. -/
lemma irrStepC (f : ℕ) :
    irrGo [-1000, 100] (f + 1) (-10009 / 10) =
      irrGo [-1000, 100] f (-100000009 / 10) := by
  show (if jsAbs (pvAux (-10009 / 10) 0 [-1000, 100]) < irrTolerance then (-10009 / 10 : ℚ)
    else if jsAbs (dnpvAux (-10009 / 10) 0 [-1000, 100]) < irrTolerance then
      irrGo [-1000, 100] f (1 / 20)
    else irrGo [-1000, 100] f
      (-10009 / 10 - pvAux (-10009 / 10) 0 [-1000, 100] / dnpvAux (-10009 / 10) 0 [-1000, 100]))
      = irrGo [-1000, 100] f (-100000009 / 10)
  norm_num [pvAux, dnpvAux, qpow, jsAbs, irrTolerance]

/-- The derivative magnitude collapses below tolerance and the iteration
reseeds at `0.05`. -/
lemma irrStepD (f : ℕ) :
    irrGo [-1000, 100] (f + 1) (-100000009 / 10) =
      irrGo [-1000, 100] f (1 / 20) := by
  show (if jsAbs (pvAux (-100000009 / 10) 0 [-1000, 100]) < irrTolerance then (-100000009 / 10 : ℚ)
    else if jsAbs (dnpvAux (-100000009 / 10) 0 [-1000, 100]) < irrTolerance then
      irrGo [-1000, 100] f (1 / 20)
    else irrGo [-1000, 100] f
      (-100000009 / 10 - pvAux (-100000009 / 10) 0 [-1000, 100] / dnpvAux (-100000009 / 10) 0 [-1000, 100]))
      = irrGo [-1000, 100] f (1 / 20)
  norm_num [pvAux, dnpvAux, qpow, jsAbs, irrTolerance]

/-- First step of the reseed cycle. -/
lemma irrCycleA (f : ℕ) :
    irrGo [-1000, 100] (f + 1) (1 / 20) = irrGo [-1000, 100] f (-397 / 40) := by
  show (if jsAbs (pvAux (1 / 20) 0 [-1000, 100]) < irrTolerance then (1 / 20 : ℚ)
    else if jsAbs (dnpvAux (1 / 20) 0 [-1000, 100]) < irrTolerance then
      irrGo [-1000, 100] f (1 / 20)
    else irrGo [-1000, 100] f
      (1 / 20 - pvAux (1 / 20) 0 [-1000, 100] / dnpvAux (1 / 20) 0 [-1000, 100]))
      = irrGo [-1000, 100] f (-397 / 40)
  norm_num [pvAux, dnpvAux, qpow, jsAbs, irrTolerance]

/-- Second step of the reseed cycle. -/
lemma irrCycleB (f : ℕ) :
    irrGo [-1000, 100] (f + 1) (-397 / 40) =
      irrGo [-1000, 100] f (-26093 / 32) := by
  show (if jsAbs (pvAux (-397 / 40) 0 [-1000, 100]) < irrTolerance then (-397 / 40 : ℚ)
    else if jsAbs (dnpvAux (-397 / 40) 0 [-1000, 100]) < irrTolerance then
      irrGo [-1000, 100] f (1 / 20)
    else irrGo [-1000, 100] f
      (-397 / 40 - pvAux (-397 / 40) 0 [-1000, 100] / dnpvAux (-397 / 40) 0 [-1000, 100]))
      = irrGo [-1000, 100] f (-26093 / 32)
  norm_num [pvAux, dnpvAux, qpow, jsAbs, irrTolerance]

/-- Third step of the reseed cycle. -/
lemma irrCycleC (f : ℕ) :
    irrGo [-1000, 100] (f + 1) (-26093 / 32) =
      irrGo [-1000, 100] f (-3396713069 / 512) := by
  show (if jsAbs (pvAux (-26093 / 32) 0 [-1000, 100]) < irrTolerance then (-26093 / 32 : ℚ)
    else if jsAbs (dnpvAux (-26093 / 32) 0 [-1000, 100]) < irrTolerance then
      irrGo [-1000, 100] f (1 / 20)
    else irrGo [-1000, 100] f
      (-26093 / 32 - pvAux (-26093 / 32) 0 [-1000, 100] / dnpvAux (-26093 / 32) 0 [-1000, 100]))
      = irrGo [-1000, 100] f (-3396713069 / 512)
  norm_num [pvAux, dnpvAux, qpow, jsAbs, irrTolerance]

/-- Fourth step: the derivative is again below tolerance, reseed at
`0.05` — a period-4 cycle. -/
lemma irrCycleD (f : ℕ) :
    irrGo [-1000, 100] (f + 1) (-3396713069 / 512) =
      irrGo [-1000, 100] f (1 / 20) := by
  show (if jsAbs (pvAux (-3396713069 / 512) 0 [-1000, 100]) < irrTolerance then (-3396713069 / 512 : ℚ)
    else if jsAbs (dnpvAux (-3396713069 / 512) 0 [-1000, 100]) < irrTolerance then
      irrGo [-1000, 100] f (1 / 20)
    else irrGo [-1000, 100] f
      (-3396713069 / 512 - pvAux (-3396713069 / 512) 0 [-1000, 100] / dnpvAux (-3396713069 / 512) 0 [-1000, 100]))
      = irrGo [-1000, 100] f (1 / 20)
  norm_num [pvAux, dnpvAux, qpow, jsAbs, irrTolerance]

/-- Any multiple of four iterations of the reseed cycle returns to
`0.05`. -/
lemma irrGo_cycle (k : ℕ) :
    irrGo [-1000, 100] (4 * k) (1 / 20) = 1 / 20 := by
  induction k with
  | zero => rfl
  | succ n ih =>
      rw [show 4 * (n + 1) = (4 * n + 3) + 1 by ring, irrCycleA,
        show 4 * n + 3 = (4 * n + 2) + 1 by ring, irrCycleB,
        show 4 * n + 2 = (4 * n + 1) + 1 by ring, irrCycleC,
        show 4 * n + 1 = (4 * n) + 1 by rfl, irrCycleD, ih]

/-- After all 100 iterations on the divergent series the reported rate is
the reseed value `0.05`. -/
lemma irrRate_diverges : irrRate 1000 [100] = 1 / 20 := by
  show irrGo [-1000, 100] 100 (1 / 10) = 1 / 20
  rw [show (100 : ℕ) = 99 + 1 by rfl, irrStepA,
    show (99 : ℕ) = 98 + 1 by rfl, irrStepB,
    show (98 : ℕ) = 97 + 1 by rfl, irrStepC,
    show (97 : ℕ) = 96 + 1 by rfl, irrStepD,
    show (96 : ℕ) = 4 * 24 by rfl, irrGo_cycle]

/-- C1 counterexample: on `initialInvestment = 1000`, flows `[100]`, the
IRR iteration does not converge; the reported `validation` residual is
`-904.76`, and `calculateNPV` at the returned rate reports the same
`-904.76` — far outside the epsilon of `1.0` claimed by the round-trip
law. -/
theorem irr_roundtrip_counterexample :
    (calculateIRR 1000 [100]).map (fun r => r.validation) =
      .ok (-22619 / 25) ∧
    (calculateNPV 1000 [100] (irrRate 1000 [100])).map (fun r => r.npv) =
      .ok (-22619 / 25) ∧
    ¬ jsAbs (-22619 / 25) ≤ 1 := by
  have hrate : irrGo [-1000, 100] 100 (1 / 10) = 1 / 20 := irrRate_diverges
  refine ⟨?_, ?_, by norm_num [jsAbs]⟩
  · unfold calculateIRR
    rw [if_neg (by simp)]
    simp only [Except.map]
    rw [hrate]
    have hv : round2 (pvAux (1 / 20) 0 [-1000, 100]) = -22619 / 25 := by
      norm_num [pvAux, qpow, round2, jsRound]
    rw [hv]
  · rw [show irrRate 1000 [100] = 1 / 20 from irrRate_diverges]
    unfold calculateNPV
    rw [if_neg (by simp), if_neg (by norm_num)]
    simp only [Except.map]
    have hv : round2 (pvAux (1 / 20) 1 [100] - 1000) = -22619 / 25 := by
      norm_num [pvAux, qpow, round2, jsRound]
    rw [hv]

/-- Splitting off the undiscounted head of the combined series. -/
lemma pvAux_cons_zero (r a : ℚ) (fs : List ℚ) :
    pvAux r 0 (a :: fs) = a + pvAux r 1 fs := by
  rw [pvAux]
  norm_num [qpow]

/-- C1 amended: the round-trip law holds exactly when the Newton
iteration lands within tolerance: if the NPV of the combined series at
the returned rate is below the `1e-4` tolerance (and the rate is
non-negative, so that `calculateNPV` accepts it), then the NPV reported
at that rate is within `1.0` of zero; moreover the `validation` field
always equals the rounded NPV of the combined series at the returned
rate, so callers can detect non-convergence. -/
theorem irr_roundtrip_on_convergence (initialInvestment : ℚ)
    (cashFlows : List ℚ) (hne : cashFlows ≠ [])
    (hrate : 0 ≤ irrRate initialInvestment cashFlows)
    (hconv : jsAbs (pvAux (irrRate initialInvestment cashFlows) 0
        (-initialInvestment :: cashFlows)) < irrTolerance) :
    (∃ res, calculateNPV initialInvestment cashFlows
        (irrRate initialInvestment cashFlows) = .ok res ∧
      jsAbs res.npv ≤ 1) ∧
    (∃ ires, calculateIRR initialInvestment cashFlows = .ok ires ∧
      ires.validation = round2 (pvAux (irrRate initialInvestment cashFlows) 0
        (-initialInvestment :: cashFlows))) := by
  have hx : |pvAux (irrRate initialInvestment cashFlows) 1 cashFlows -
      initialInvestment| < 1 / 10000 := by
    have h := hconv
    rw [jsAbs_eq_abs, pvAux_cons_zero,
      show -initialInvestment + pvAux (irrRate initialInvestment cashFlows) 1
          cashFlows =
        pvAux (irrRate initialInvestment cashFlows) 1 cashFlows -
          initialInvestment from by ring] at h
    exact h
  constructor
  · unfold calculateNPV
    rw [if_neg hne, if_neg (not_lt.2 hrate)]
    refine ⟨_, rfl, ?_⟩
    show jsAbs (round2 (pvAux (irrRate initialInvestment cashFlows) 1
      cashFlows - initialInvestment)) ≤ 1
    rw [jsAbs_eq_abs]
    set x := pvAux (irrRate initialInvestment cashFlows) 1 cashFlows -
      initialInvestment with hxdef
    calc |round2 x| = |(round2 x - x) + x| := by ring_nf
      _ ≤ |round2 x - x| + |x| := abs_add _ _
      _ ≤ 1 := by linarith [abs_round2_sub_le x, hx]
  · unfold calculateIRR
    rw [if_neg hne]
    exact ⟨_, rfl, rfl⟩

/-- Witness for `irr_roundtrip_on_convergence` at
`initialInvestment = 100`, flows `[110]` (exact root at rate `0.1`, hit
on the first iteration). -/
theorem irr_roundtrip_on_convergence_witness :
    (([110] : List ℚ) ≠ [] ∧ 0 ≤ irrRate 100 [110] ∧
      jsAbs (pvAux (irrRate 100 [110]) 0 (-100 :: [110])) < irrTolerance) ∧
    (∃ res, calculateNPV 100 [110] (irrRate 100 [110]) = .ok res ∧
      jsAbs res.npv ≤ 1) := by
  have h1 : ([110] : List ℚ) ≠ [] := by simp
  have h2 : 0 ≤ irrRate 100 [110] := by with_unfolding_all decide
  have h3 : jsAbs (pvAux (irrRate 100 [110]) 0 (-100 :: [110])) <
      irrTolerance := by with_unfolding_all decide
  exact ⟨⟨h1, h2, h3⟩, (irr_roundtrip_on_convergence 100 [110] h1 h2 h3).1⟩


/-! ## Claim C2: decision-tree backward induction -/

/-- `specChoiceEVs` is the map of `specEV` over the subtree components. -/
lemma specChoiceEVs_eq_map :
    ∀ l : List (String × DTree), specChoiceEVs l =
      l.map (fun nb => specEV nb.2)
  | [] => rfl
  | nb :: rest => by rw [specChoiceEVs, specChoiceEVs_eq_map rest, List.map_cons]

/-- The `reduce`-selected best alternative is one of the alternatives. -/
lemma foldl_pickBest_mem :
    ∀ (rest : List (String × ℚ)) (a : String × ℚ),
      rest.foldl pickBest a ∈ a :: rest
  | [], a => List.mem_cons_self a []
  | c :: rest, a => by
      rw [List.foldl_cons]
      have h := foldl_pickBest_mem rest (pickBest a c)
      rcases List.mem_cons.mp h with h1 | h1
      · rw [h1]
        unfold pickBest
        by_cases hc : a.2 < c.2
        · rw [if_pos hc]
          exact List.mem_cons_of_mem a (List.mem_cons_self c rest)
        · rw [if_neg hc]
          exact List.mem_cons_self a (c :: rest)
      · exact List.mem_cons_of_mem a (List.mem_cons_of_mem c h1)

/-- The `reduce`-selected best alternative carries the running maximum of
the expected values. -/
lemma foldl_pickBest_snd :
    ∀ (rest : List (String × ℚ)) (a : String × ℚ),
      (rest.foldl pickBest a).2 =
        rest.foldl (fun m cur => max m cur.2) a.2
  | [], a => rfl
  | c :: rest, a => by
      rw [List.foldl_cons, List.foldl_cons, foldl_pickBest_snd rest]
      have hsnd : (pickBest a c).2 = max a.2 c.2 := by
        unfold pickBest
        by_cases hc : a.2 < c.2
        · rw [if_pos hc, max_eq_right hc.le]
        · rw [if_neg hc, max_eq_left (not_lt.1 hc)]
      rw [hsnd]

mutual

/-- On a well-formed tree, `analyzeNode` succeeds and its expected value
is the spec-side backward induction over the abstracted tree. -/
theorem analyze_refines_node :
    ∀ t : JSNode, wellFormed t →
      ∃ r, analyzeNode t = some r ∧ r.expectedValue = specEV (absNode t)
  | .mk nm ty v p bs => by
      intro hwf
      cases ty with
      | outcome =>
          exact ⟨⟨v, none⟩, rfl, rfl⟩
      | chance =>
          obtain ⟨hc, -⟩ := analyze_refines_list bs hwf.2
          refine ⟨⟨round2 (specChanceSum (absChanceBranches bs)), none⟩, ?_, rfl⟩
          simp [analyzeNode, hc]
      | decision =>
          have hne : bs ≠ [] := hwf.1 rfl
          obtain ⟨-, ha⟩ := analyze_refines_list bs hwf.2
          match bs, hne with
          | b :: bs2, _ =>
              rw [absChoiceBranches, List.map_cons] at ha
              refine ⟨⟨(((absChoiceBranches bs2).map
                    (fun nb => (nb.1, specEV nb.2))).foldl pickBest
                    ((b.name, absNode b).1, specEV (b.name, absNode b).2)).2,
                  some (((absChoiceBranches bs2).map
                    (fun nb => (nb.1, specEV nb.2))).foldl pickBest
                    ((b.name, absNode b).1, specEV (b.name, absNode b).2)).1⟩,
                ?_, ?_⟩
              · simp only [analyzeNode, ha]
              · dsimp only
                rw [foldl_pickBest_snd, List.foldl_map]
                simp only [absNode, specEV, specChoiceEVs,
                  specChoiceEVs_eq_map, List.foldl_map]

/-- On well-formed branch lists the chance accumulator and the decision
alternatives agree with their spec-side counterparts. -/
theorem analyze_refines_list :
    ∀ bs : List JSNode, wellFormedList bs →
      chanceSum bs = some (specChanceSum (absChanceBranches bs)) ∧
      altList bs = some ((absChoiceBranches bs).map
        (fun nb => (nb.1, specEV nb.2)))
  | [] => fun _ => ⟨rfl, rfl⟩
  | b :: bs => fun hwf => by
      obtain ⟨rb, hb, hev⟩ := analyze_refines_node b hwf.1
      obtain ⟨hc, ha⟩ := analyze_refines_list bs hwf.2
      constructor
      · rw [chanceSum, hb, hc]
        simp [absChanceBranches, specChanceSum, hev]
      · rw [altList, hb, ha]
        simp [absChoiceBranches, hev]

end


/-- C2 amended: `decisionTreeAnalysis` is backward induction over the
tree — terminal nodes return their value, chance nodes the
probability-weighted sum of their children **rounded to two decimals**,
decision nodes the maximum child expected value — and the recorded
`bestDecision` names a child achieving that maximum; the concrete
decision node over terminals `10` and `-5` evaluates to `10` with the
higher-valued child recorded. -/
theorem decision_tree_backward_induction :
    (∀ t, wellFormed t →
      (analyzeNode t).map (fun r => r.expectedValue) =
        some (specEV (absNode t))) ∧
    (∀ nm v p bs, wellFormed (JSNode.mk nm .decision v p bs) →
      ∃ r, analyzeNode (JSNode.mk nm .decision v p bs) = some r ∧
        ∃ nb ∈ absChoiceBranches bs, r.bestDecision = some nb.1 ∧
          specEV nb.2 = r.expectedValue) ∧
    decisionTreeAnalysis (JSNode.mk "d" .decision 0 0
        [JSNode.mk "A" .outcome 10 0 [], JSNode.mk "B" .outcome (-5) 0 []]) =
      some ⟨10, some "A"⟩ := by
  refine ⟨?_, ?_, by with_unfolding_all decide⟩
  · intro t h
    obtain ⟨r, hr, hev⟩ := analyze_refines_node t h
    rw [hr, Option.map_some', hev]
  · intro nm v p bs h
    have hne : bs ≠ [] := h.1 rfl
    have ha := (analyze_refines_list bs h.2).2
    match bs, hne with
    | b :: bs2, _ =>
        rw [absChoiceBranches, List.map_cons] at ha
        have hana : analyzeNode (JSNode.mk nm .decision v p (b :: bs2)) =
            some ⟨(((absChoiceBranches bs2).map
                (fun nb => (nb.1, specEV nb.2))).foldl pickBest
                ((b.name, absNode b).1, specEV (b.name, absNode b).2)).2,
              some ((((absChoiceBranches bs2).map
                (fun nb => (nb.1, specEV nb.2))).foldl pickBest
                ((b.name, absNode b).1, specEV (b.name, absNode b).2)).1)⟩ := by
          simp only [analyzeNode, ha]
        refine ⟨_, hana, ?_⟩
        have hmem := foldl_pickBest_mem
          ((absChoiceBranches bs2).map (fun nb => (nb.1, specEV nb.2)))
          ((b.name, absNode b).1, specEV (b.name, absNode b).2)
        rw [show (((b.name, absNode b).1, specEV (b.name, absNode b).2) ::
            (absChoiceBranches bs2).map (fun nb => (nb.1, specEV nb.2))) =
          (absChoiceBranches (b :: bs2)).map (fun nb => (nb.1, specEV nb.2))
          from by rw [absChoiceBranches, List.map_cons]] at hmem
        obtain ⟨nb, hnb, hfnb⟩ := List.mem_map.mp hmem
        exact ⟨nb, hnb, by rw [← hfnb], by rw [← hfnb]⟩

/-- Witness for `decision_tree_backward_induction` at the two-terminal
decision tree. -/
theorem decision_tree_backward_induction_witness :
    wellFormed (JSNode.mk "d" .decision 0 0
      [JSNode.mk "A" .outcome 10 0 [], JSNode.mk "B" .outcome (-5) 0 []]) ∧
    (analyzeNode (JSNode.mk "d" .decision 0 0
        [JSNode.mk "A" .outcome 10 0 [], JSNode.mk "B" .outcome (-5) 0 []])).map
        (fun r => r.expectedValue) =
      some (specEV (absNode (JSNode.mk "d" .decision 0 0
        [JSNode.mk "A" .outcome 10 0 [],
         JSNode.mk "B" .outcome (-5) 0 []]))) := by
  have hwf : wellFormed (JSNode.mk "d" .decision 0 0
      [JSNode.mk "A" .outcome 10 0 [], JSNode.mk "B" .outcome (-5) 0 []]) := by
    simp [wellFormed, wellFormedList]
  exact ⟨hwf, decision_tree_backward_induction.1 _ hwf⟩

end DashboardEconomics
